import Mathlib

/-!
Verification of the QR generator component in
`src/components/QrGenerator.tsx`.

The component's logic is embedded shallowly: the browser canvas is a
pixel map, `QRCode.toCanvas` and the logo asset at `/logo.png` are
external dependencies packaged in an `Env`, and the `run` closure of the
render effect is a pure function from the environment, the prior canvas
and the UI state to a new canvas plus an optional surfaced error.
Rationals stand in for JavaScript numbers; `Math.floor` is `Int.floor`.
-/

set_option autoImplicit false

namespace QrGen

/-- Result of the browser `new URL(...)` parser, restricted to the piece
the component reads; `protocol` carries the trailing colon, as in the
WHATWG URL API. -/
structure URLRecord where
  protocol : String
deriving DecidableEq

/-- The UI modes: `type Mode = "redirect" | "website" | "plain"`. -/
inductive Mode
  | redirect
  | website
  | plain
deriving DecidableEq

/-- QR error-correction levels of the `qrcode` library. -/
inductive ECLevel
  | L
  | M
  | Q
  | H
deriving DecidableEq

/-- The options object the component passes to `QRCode.toCanvas`. -/
structure QrOptions where
  errorCorrectionLevel : ECLevel
  margin : Nat
  width : Nat
  dark : String
  light : String
deriving DecidableEq

/-- A canvas: its logical size and a pixel map.  `none` is a cleared
(transparent) pixel; `some c` is a painted CSS color. -/
structure Canvas where
  width : Nat
  height : Nat
  px : Nat → Nat → Option String

/-- `ctx.clearRect(x, y, w, h)`. -/
def clearRect (c : Canvas) (x y w h : Nat) : Canvas :=
  { c with px := fun i j =>
      if x ≤ i ∧ i < x + w ∧ y ≤ j ∧ j < y + h then none else c.px i j }

/-- `canvas.width = n; canvas.height = n`: assigning the size resets
every pixel of the canvas. -/
def resizeSquare (_c : Canvas) (n : Nat) : Canvas :=
  { width := n, height := n, px := fun _ _ => none }

/-- `ctx.fillRect(x, y, w, h)` with a solid `fillStyle`. -/
def fillRect (c : Canvas) (x y w h : Int) (color : String) : Canvas :=
  { c with px := fun i j =>
      if x ≤ (i : Int) ∧ (i : Int) < x + w ∧ y ≤ (j : Int) ∧ (j : Int) < y + h
      then some color else c.px i j }

/-- `ctx.drawImage(logo, x, y, w, h)` for a square destination: the
`logo` argument gives the drawn pixel at each offset of the destination
square (`none` where the asset is transparent, letting the canvas show
through). -/
def drawImage (c : Canvas) (logo : Int → Int → Option String) (x y w h : Int) :
    Canvas :=
  { c with px := fun i j =>
      if x ≤ (i : Int) ∧ (i : Int) < x + w ∧ y ≤ (j : Int) ∧ (j : Int) < y + h then
        match logo ((i : Int) - x) ((j : Int) - y) with
        | some col => some col
        | none => c.px i j
      else c.px i j }

/-- Successful `QRCode.toCanvas` paints the whole `w × w` square with
the engine's raster. -/
def qrToCanvas (c : Canvas) (qr : Nat → Nat → String) (w : Nat) : Canvas :=
  { c with px := fun i j => if i < w ∧ j < w then some (qr i j) else c.px i j }

/-- `isValidHttpUrl` from the source: parse the string, then compare the
protocol against `http:` and `https:`; a parse failure (the `catch`
branch) yields `false`.  The browser parser is the `parseURL`
parameter. -/
def isValidHttpUrl (parseURL : String → Option URLRecord) (value : String) :
    Bool :=
  match parseURL value with
  | some u => u.protocol == "http:" || u.protocol == "https:"
  | none => false

/-- `const embedLogo = mode !== "plain"`. -/
def embedLogoOf (mode : Mode) : Bool :=
  mode != Mode.plain

/-- Characters stripped by JavaScript `String.prototype.trim`: the
WhiteSpace and LineTerminator code points (ASCII ones plus NBSP, BOM and
the Unicode line separators). -/
def jsWhitespace (c : Char) : Bool :=
  c == ' ' || c == '\t' || c == '\n' || c == '\r' || c == '\x0B' ||
    c == '\x0C' || c == '\u00A0' || c == '\uFEFF' || c == '\u2028' ||
    c == '\u2029'

/-- JavaScript `s.trim()`: drop leading and trailing whitespace. -/
def jsTrim (s : String) : String :=
  String.mk
    (((s.data.dropWhile fun c => jsWhitespace c).reverse.dropWhile
        fun c => jsWhitespace c).reverse)

/-- `targetUrl`: the field selected by the mode, trimmed. -/
def targetUrlOf (mode : Mode) (redirectUrl websiteUrl : String) : String :=
  if mode = Mode.redirect then jsTrim redirectUrl else jsTrim websiteUrl

/-- `const logoSize = Math.floor(size * logoRatio)`. -/
def logoSizeOf (size : Nat) (logoRatio : ℚ) : Int :=
  ⌊(size : ℚ) * logoRatio⌋

/-- `const x = Math.floor(size / 2 - logoSize / 2)` (and identically
`y`). -/
def logoOriginOf (size : Nat) (logoSize : Int) : Int :=
  ⌊(size : ℚ) / 2 - (logoSize : ℚ) / 2⌋

/-- The error surfaced through `setError`, tagged with the step it came
from. -/
inductive RenderError
  | validationError (msg : String)
  | logoLoadError (msg : String)
  | encodingError (msg : String)
deriving DecidableEq

/-- External dependencies of one render: the URL parser, the QR engine
(`QRCode.toCanvas`, returning a raster or an encoding failure), and the
logo asset at `/logo.png`, already decoded: for each destination side
length and offset the drawn pixel, or a load failure. -/
structure Env where
  parseURL : String → Option URLRecord
  qrEngine : String → QrOptions → Except String (Nat → Nat → String)
  logoAsset : Except String (Int → Int → Int → Option String)

/-- What one invocation of `run` leaves behind: the canvas and the
`error` state (`setError(null)` starts each run, so the field is wholly
replaced). -/
structure RunOutcome where
  canvas : Canvas
  error : Option RenderError

/-- The `run` closure of the render effect, one invocation: validate the
target, on failure clear the canvas and surface the validation message;
otherwise resize the canvas, draw the QR, and when a logo is embedded
load it, punch a white square and draw the logo over it.  A failure
thrown by the engine or the logo load lands in the `catch` and is
surfaced via `setError`. -/
def run (env : Env) (st : Canvas) (mode : Mode) (redirectUrl websiteUrl : String)
    (size : Nat) (logoRatio : ℚ) (margin : Nat) : RunOutcome :=
  let embedLogo := embedLogoOf mode
  let targetUrl := targetUrlOf mode redirectUrl websiteUrl
  let canGenerate := isValidHttpUrl env.parseURL targetUrl
  if canGenerate = false then
    { canvas := clearRect st 0 0 st.width st.height
      error := some (RenderError.validationError
        "Please enter a valid http/https URL.") }
  else
    let c1 := resizeSquare st size
    match env.qrEngine targetUrl
        { errorCorrectionLevel := if embedLogo then ECLevel.H else ECLevel.M
          margin := margin
          width := size
          dark := "#000000"
          light := "#FFFFFF" } with
    | Except.error msg =>
        { canvas := c1, error := some (RenderError.encodingError msg) }
    | Except.ok qr =>
        let c2 := qrToCanvas c1 qr size
        if embedLogo then
          match env.logoAsset with
          | Except.error msg =>
              { canvas := c2, error := some (RenderError.logoLoadError msg) }
          | Except.ok logoScaled =>
              let logoSize := logoSizeOf size logoRatio
              let x := logoOriginOf size logoSize
              let y := logoOriginOf size logoSize
              let c3 := fillRect c2 x y logoSize logoSize "#FFFFFF"
              let c4 := drawImage c3 (logoScaled logoSize) x y logoSize logoSize
              { canvas := c4, error := none }
        else
          { canvas := c2, error := none }

/-- A URL parser stub over the concrete strings the witnesses use. -/
def demoParse : String → Option URLRecord := fun s =>
  if s = "ftp://example.com" then some ⟨"ftp:"⟩
  else if s = "https://www.example.com/app-redirect" then some ⟨"https:"⟩
  else if s = "https://www.example.com" then some ⟨"https:"⟩
  else none

/-- A checkerboard raster standing in for an engine output. -/
def demoQr : Nat → Nat → String := fun i j =>
  if (i + j) % 2 = 0 then "#000000" else "#FFFFFF"

/-- An environment whose engine and logo always succeed. -/
def demoEnv : Env :=
  ⟨demoParse, fun _ _ => Except.ok demoQr,
    Except.ok (fun _ _ _ => some "#123456")⟩

/-- The same environment with a failing logo load. -/
def demoEnvLogoFail : Env :=
  ⟨demoParse, fun _ _ => Except.ok demoQr, Except.error "Failed to load logo"⟩

/-- The same environment with a failing QR engine. -/
def demoEnvEncodeFail : Env :=
  ⟨demoParse, fun _ _ => Except.error "The amount of data is too big",
    Except.ok (fun _ _ _ => some "#123456")⟩

/-- An engine agreeing with `demoEnv` at every option record except the
ones with error-correction level `L`, where it fails instead. -/
def demoEnvAltEngine : Env :=
  ⟨demoParse,
    fun s o =>
      if o.errorCorrectionLevel = ECLevel.L then Except.error "alt"
      else demoEnv.qrEngine s o,
    demoEnv.logoAsset⟩

/-- A small prior canvas holding stale content. -/
def demoCanvas : Canvas :=
  ⟨4, 4, fun _ _ => some "#000000"⟩

theorem embedLogoOf_eq_true {mode : Mode} (h : mode ≠ Mode.plain) :
    embedLogoOf mode = true := by
  cases mode
  · rfl
  · rfl
  · exact absurd rfl h

/-- C2: `isValidHttpUrl` returns `true` exactly when the URL parser
succeeds and the protocol is `http:` or `https:`; it is a total function
of its arguments, so it has no side effects and never throws. -/
theorem isValidHttpUrl_iff (parseURL : String → Option URLRecord) (s : String) :
    isValidHttpUrl parseURL s = true ↔
      ∃ u, parseURL s = some u ∧
        (u.protocol = "http:" ∨ u.protocol = "https:") := by
  unfold isValidHttpUrl
  cases h : parseURL s with
  | none => simp
  | some u => simp [h]

/-- C1: when the target text fails validation, `run` surfaces the
validation error, keeps the canvas dimensions, and clears every pixel of
the prior output — no partial image remains. -/
theorem run_invalid_target (env : Env) (st : Canvas) (mode : Mode)
    (ru wu : String) (size : Nat) (ratio : ℚ) (margin : Nat)
    (h : isValidHttpUrl env.parseURL (targetUrlOf mode ru wu) = false) :
    (run env st mode ru wu size ratio margin).error
        = some (RenderError.validationError
            "Please enter a valid http/https URL.")
      ∧ (run env st mode ru wu size ratio margin).canvas.width = st.width
      ∧ (run env st mode ru wu size ratio margin).canvas.height = st.height
      ∧ ∀ i j, i < st.width → j < st.height →
          (run env st mode ru wu size ratio margin).canvas.px i j = none := by
  unfold run
  simp only [h]
  refine ⟨rfl, rfl, rfl, ?_⟩
  intro i j hi hj
  simp [clearRect, hi, hj]

/-- C1 witness, at the spec scenario `targetText = "ftp://example.com"`. -/
theorem run_invalid_target_witness :
    (run demoEnv demoCanvas Mode.redirect "ftp://example.com"
        "https://www.example.com" 900 (1/5) 2).error
      = some (RenderError.validationError
          "Please enter a valid http/https URL.") :=
  (run_invalid_target demoEnv demoCanvas Mode.redirect "ftp://example.com"
    "https://www.example.com" 900 (1/5) 2 (by decide)).1

/-- C3: `run` consults the QR engine only at the trimmed target URL with
error-correction level `H` when a logo will be overlaid and `M`
otherwise, the request's margin (in QR-module units), `width = size`,
and colors fixed at `#000000` on `#FFFFFF`: two environments whose
engines agree at exactly that invocation render identically. -/
theorem run_engine_options (env env2 : Env) (st : Canvas) (mode : Mode)
    (ru wu : String) (size : Nat) (ratio : ℚ) (margin : Nat)
    (hp : env2.parseURL = env.parseURL)
    (hl : env2.logoAsset = env.logoAsset)
    (he : env2.qrEngine (targetUrlOf mode ru wu)
            ⟨if embedLogoOf mode then ECLevel.H else ECLevel.M,
              margin, size, "#000000", "#FFFFFF"⟩
        = env.qrEngine (targetUrlOf mode ru wu)
            ⟨if embedLogoOf mode then ECLevel.H else ECLevel.M,
              margin, size, "#000000", "#FFFFFF"⟩) :
    run env2 st mode ru wu size ratio margin
      = run env st mode ru wu size ratio margin := by
  unfold run
  simp only [hp, hl, he]

/-- C3 witness: an engine that differs from the demo engine only at
level-`L` invocations renders the same image. -/
theorem run_engine_options_witness :
    run demoEnvAltEngine demoCanvas Mode.redirect
        "https://www.example.com/app-redirect" "https://www.example.com"
        900 (1/5) 2
      = run demoEnv demoCanvas Mode.redirect
        "https://www.example.com/app-redirect" "https://www.example.com"
        900 (1/5) 2 :=
  run_engine_options demoEnv demoEnvAltEngine demoCanvas Mode.redirect
    "https://www.example.com/app-redirect" "https://www.example.com"
    900 (1/5) 2 rfl rfl rfl

/-- C6: in plain mode (no logo), the final canvas is exactly the engine
raster painted on a fresh buffer: each in-range pixel is the engine's
pixel, nothing is painted outside it, and no compositing happens. -/
theorem run_plain_engine_exact (env : Env) (st : Canvas) (ru wu : String)
    (size : Nat) (ratio : ℚ) (margin : Nat) (qr : Nat → Nat → String)
    (hv : isValidHttpUrl env.parseURL (targetUrlOf Mode.plain ru wu) = true)
    (he : env.qrEngine (targetUrlOf Mode.plain ru wu)
        ⟨ECLevel.M, margin, size, "#000000", "#FFFFFF"⟩ = Except.ok qr) :
    (run env st Mode.plain ru wu size ratio margin).error = none
    ∧ (run env st Mode.plain ru wu size ratio margin).canvas
        = qrToCanvas (resizeSquare st size) qr size
    ∧ (∀ i j, i < size → j < size →
        (run env st Mode.plain ru wu size ratio margin).canvas.px i j
          = some (qr i j))
    ∧ (∀ i j, size ≤ i ∨ size ≤ j →
        (run env st Mode.plain ru wu size ratio margin).canvas.px i j
          = none) := by
  have hrun : run env st Mode.plain ru wu size ratio margin
      = ⟨qrToCanvas (resizeSquare st size) qr size, none⟩ := by
    unfold run
    simp only [hv, embedLogoOf, bne_self_eq_false, Bool.false_eq_true,
      if_false, Bool.true_eq_false, he]
  refine ⟨by rw [hrun], by rw [hrun], ?_, ?_⟩
  · intro i j hi hj
    rw [hrun]
    simp [qrToCanvas, hi, hj]
  · intro i j hij
    rw [hrun]
    rcases hij with hi | hj
    · simp [qrToCanvas, resizeSquare, Nat.not_lt.mpr hi]
    · simp [qrToCanvas, resizeSquare, Nat.not_lt.mpr hj]

/-- C6 witness at the no-logo scenario. -/
theorem run_plain_engine_exact_witness :
    (run demoEnv demoCanvas Mode.plain "https://www.example.com/app-redirect"
        "https://www.example.com" 900 (1/5) 2).error = none :=
  (run_plain_engine_exact demoEnv demoCanvas
    "https://www.example.com/app-redirect" "https://www.example.com"
    900 (1/5) 2 demoQr (by decide) rfl).1

/-- C5 counterexample: when the logo asset fails to load, the error is
surfaced but the freshly drawn QR raster stays on the canvas — the
render does produce output despite the failure, contradicting "no
partial output is produced". -/
theorem run_logo_fail_partial_output :
    (run demoEnvLogoFail demoCanvas Mode.redirect
        "https://www.example.com/app-redirect" "https://www.example.com"
        900 (1/5) 2).error
      = some (RenderError.logoLoadError "Failed to load logo")
    ∧ (run demoEnvLogoFail demoCanvas Mode.redirect
        "https://www.example.com/app-redirect" "https://www.example.com"
        900 (1/5) 2).canvas.px 0 0 = some "#000000" := by
  constructor
  · decide
  · decide

/-- C5 amended: after validation, a failing step aborts the rest of the
render and surfaces its tagged error; an encoding failure leaves the
resized canvas blank, while a logo-load failure leaves the complete QR
raster on the canvas with no logo applied. -/
theorem run_failure_reporting (env : Env) (st : Canvas) (mode : Mode)
    (ru wu : String) (size : Nat) (ratio : ℚ) (margin : Nat)
    (hv : isValidHttpUrl env.parseURL (targetUrlOf mode ru wu) = true) :
    (∀ msg, env.qrEngine (targetUrlOf mode ru wu)
          ⟨if embedLogoOf mode then ECLevel.H else ECLevel.M,
            margin, size, "#000000", "#FFFFFF"⟩
        = Except.error msg →
        (run env st mode ru wu size ratio margin).error
            = some (RenderError.encodingError msg)
          ∧ ∀ i j, (run env st mode ru wu size ratio margin).canvas.px i j
              = none)
    ∧ (∀ msg qr, mode ≠ Mode.plain →
        env.qrEngine (targetUrlOf mode ru wu)
            ⟨ECLevel.H, margin, size, "#000000", "#FFFFFF"⟩ = Except.ok qr →
        env.logoAsset = Except.error msg →
        (run env st mode ru wu size ratio margin).error
            = some (RenderError.logoLoadError msg)
          ∧ ∀ i j, i < size → j < size →
              (run env st mode ru wu size ratio margin).canvas.px i j
                = some (qr i j)) := by
  constructor
  · intro msg hemsg
    have hrun : run env st mode ru wu size ratio margin
        = ⟨resizeSquare st size, some (RenderError.encodingError msg)⟩ := by
      unfold run
      simp only [hv, Bool.true_eq_false, if_false, hemsg]
    rw [hrun]
    exact ⟨rfl, fun i j => rfl⟩
  · intro msg qr hm heok hlogo
    have hb : embedLogoOf mode = true := embedLogoOf_eq_true hm
    have hrun : run env st mode ru wu size ratio margin
        = ⟨qrToCanvas (resizeSquare st size) qr size,
            some (RenderError.logoLoadError msg)⟩ := by
      unfold run
      simp only [hv, hb, Bool.true_eq_false, if_false, if_true, heok, hlogo]
    refine ⟨by rw [hrun], ?_⟩
    intro i j hi hj
    rw [hrun]
    simp [qrToCanvas, hi, hj]

/-- C5 amended witness: the logo-load failure branch at the demo
environment. -/
theorem run_failure_reporting_witness :
    (run demoEnvLogoFail demoCanvas Mode.redirect
        "https://www.example.com/app-redirect" "https://www.example.com"
        900 (1/5) 2).error
      = some (RenderError.logoLoadError "Failed to load logo") :=
  ((run_failure_reporting demoEnvLogoFail demoCanvas Mode.redirect
      "https://www.example.com/app-redirect" "https://www.example.com"
      900 (1/5) 2 (by decide)).2 "Failed to load logo" demoQr
    (by decide) rfl rfl).1

/-- The corner formula rounds toward the top-left: twice the corner
offset never exceeds the remaining space `size - logoSize`. -/
theorem two_mul_logoOriginOf_le (size : Nat) (s : Int) :
    2 * logoOriginOf size s ≤ (size : Int) - s := by
  have h := Int.floor_le ((size : ℚ) / 2 - (s : ℚ) / 2)
  have h2 : ((2 * logoOriginOf size s : Int) : ℚ) ≤ (((size : Int) - s : Int) : ℚ) := by
    unfold logoOriginOf
    push_cast
    linarith
  exact_mod_cast h2

/-- Characterization of a fully successful render with a logo. -/
theorem run_logo_eq (env : Env) (st : Canvas) (mode : Mode)
    (ru wu : String) (size : Nat) (ratio : ℚ) (margin : Nat)
    (qr : Nat → Nat → String) (logoScaled : Int → Int → Int → Option String)
    (hv : isValidHttpUrl env.parseURL (targetUrlOf mode ru wu) = true)
    (hb : embedLogoOf mode = true)
    (he : env.qrEngine (targetUrlOf mode ru wu)
        ⟨ECLevel.H, margin, size, "#000000", "#FFFFFF"⟩ = Except.ok qr)
    (hlogo : env.logoAsset = Except.ok logoScaled) :
    run env st mode ru wu size ratio margin
      = ⟨drawImage
          (fillRect (qrToCanvas (resizeSquare st size) qr size)
            (logoOriginOf size (logoSizeOf size ratio))
            (logoOriginOf size (logoSizeOf size ratio))
            (logoSizeOf size ratio) (logoSizeOf size ratio) "#FFFFFF")
          (logoScaled (logoSizeOf size ratio))
          (logoOriginOf size (logoSizeOf size ratio))
          (logoOriginOf size (logoSizeOf size ratio))
          (logoSizeOf size ratio) (logoSizeOf size ratio), none⟩ := by
  unfold run
  simp only [hv, hb, Bool.true_eq_false, if_false, if_true, he, hlogo]

/-- C4: on a successful render with a logo, the white patch and the logo
are drawn as a square of side `logoSizeOf size ratio = ⌊size·ratio⌋`
whose top-left corner is `logoOriginOf = ⌊size/2 − logoSize/2⌋` in both
coordinates, and the floor biases the square toward the top-left (the
top/left gap never exceeds the bottom/right gap). -/
theorem run_logo_geometry (env : Env) (st : Canvas) (mode : Mode)
    (ru wu : String) (size : Nat) (ratio : ℚ) (margin : Nat)
    (qr : Nat → Nat → String) (logoScaled : Int → Int → Int → Option String)
    (hv : isValidHttpUrl env.parseURL (targetUrlOf mode ru wu) = true)
    (hm : mode ≠ Mode.plain)
    (he : env.qrEngine (targetUrlOf mode ru wu)
        ⟨ECLevel.H, margin, size, "#000000", "#FFFFFF"⟩ = Except.ok qr)
    (hlogo : env.logoAsset = Except.ok logoScaled) :
    (run env st mode ru wu size ratio margin).error = none
    ∧ (run env st mode ru wu size ratio margin).canvas
        = drawImage
            (fillRect (qrToCanvas (resizeSquare st size) qr size)
              (logoOriginOf size (logoSizeOf size ratio))
              (logoOriginOf size (logoSizeOf size ratio))
              (logoSizeOf size ratio) (logoSizeOf size ratio) "#FFFFFF")
            (logoScaled (logoSizeOf size ratio))
            (logoOriginOf size (logoSizeOf size ratio))
            (logoOriginOf size (logoSizeOf size ratio))
            (logoSizeOf size ratio) (logoSizeOf size ratio)
    ∧ logoSizeOf size ratio = ⌊(size : ℚ) * ratio⌋
    ∧ logoOriginOf size (logoSizeOf size ratio)
        = ⌊(size : ℚ) / 2 - ((logoSizeOf size ratio : Int) : ℚ) / 2⌋
    ∧ 2 * logoOriginOf size (logoSizeOf size ratio)
        ≤ (size : Int) - logoSizeOf size ratio := by
  have hrun := run_logo_eq env st mode ru wu size ratio margin qr logoScaled
    hv (embedLogoOf_eq_true hm) he hlogo
  exact ⟨by rw [hrun], by rw [hrun], rfl, rfl,
    two_mul_logoOriginOf_le size (logoSizeOf size ratio)⟩

/-- C4 witness at the spec scenario: 900 px, ratio 1/5 (a 180-px square
at offset 360). -/
theorem run_logo_geometry_witness :
    (run demoEnv demoCanvas Mode.redirect
        "https://www.example.com/app-redirect" "https://www.example.com"
        900 (1/5) 2).error = none
    ∧ logoSizeOf 900 (1/5) = 180
    ∧ logoOriginOf 900 (logoSizeOf 900 (1/5)) = 360 :=
  ⟨(run_logo_geometry demoEnv demoCanvas Mode.redirect
      "https://www.example.com/app-redirect" "https://www.example.com"
      900 (1/5) 2 demoQr (fun _ _ _ => some "#123456")
      (by decide) (by decide) rfl rfl).1,
    by unfold logoSizeOf; norm_num,
    by unfold logoOriginOf logoSizeOf; norm_num⟩

/-- C7: on a successful render with a logo, every pixel of the logo
square is the drawn logo pixel where the asset is opaque and the white
backing patch where it is transparent — the QR raster underneath is
never visible inside the square. -/
theorem run_logo_center_white_backed (env : Env) (st : Canvas) (mode : Mode)
    (ru wu : String) (size : Nat) (ratio : ℚ) (margin : Nat)
    (qr : Nat → Nat → String) (logoScaled : Int → Int → Int → Option String)
    (hv : isValidHttpUrl env.parseURL (targetUrlOf mode ru wu) = true)
    (hm : mode ≠ Mode.plain)
    (he : env.qrEngine (targetUrlOf mode ru wu)
        ⟨ECLevel.H, margin, size, "#000000", "#FFFFFF"⟩ = Except.ok qr)
    (hlogo : env.logoAsset = Except.ok logoScaled) :
    ∀ i j : Nat,
      logoOriginOf size (logoSizeOf size ratio) ≤ (i : Int) →
      (i : Int) < logoOriginOf size (logoSizeOf size ratio)
          + logoSizeOf size ratio →
      logoOriginOf size (logoSizeOf size ratio) ≤ (j : Int) →
      (j : Int) < logoOriginOf size (logoSizeOf size ratio)
          + logoSizeOf size ratio →
      (run env st mode ru wu size ratio margin).canvas.px i j
        = some ((logoScaled (logoSizeOf size ratio)
            ((i : Int) - logoOriginOf size (logoSizeOf size ratio))
            ((j : Int) - logoOriginOf size (logoSizeOf size ratio))).getD
            "#FFFFFF") := by
  intro i j h1 h2 h3 h4
  rw [run_logo_eq env st mode ru wu size ratio margin qr logoScaled hv
    (embedLogoOf_eq_true hm) he hlogo]
  show (drawImage
      (fillRect (qrToCanvas (resizeSquare st size) qr size)
        (logoOriginOf size (logoSizeOf size ratio))
        (logoOriginOf size (logoSizeOf size ratio))
        (logoSizeOf size ratio) (logoSizeOf size ratio) "#FFFFFF")
      (logoScaled (logoSizeOf size ratio))
      (logoOriginOf size (logoSizeOf size ratio))
      (logoOriginOf size (logoSizeOf size ratio))
      (logoSizeOf size ratio) (logoSizeOf size ratio)).px i j = _
  unfold drawImage fillRect
  simp only []
  rw [if_pos ⟨h1, h2, h3, h4⟩]
  cases hc : logoScaled (logoSizeOf size ratio)
      ((i : Int) - logoOriginOf size (logoSizeOf size ratio))
      ((j : Int) - logoOriginOf size (logoSizeOf size ratio)) with
  | some c => simp
  | none => rw [if_pos ⟨h1, h2, h3, h4⟩]; simp

/-- C7 witness: the center pixel (450, 450) of the spec scenario shows
the (opaque) demo logo color. -/
theorem run_logo_center_white_backed_witness :
    (run demoEnv demoCanvas Mode.redirect
        "https://www.example.com/app-redirect" "https://www.example.com"
        900 (1/5) 2).canvas.px 450 450 = some "#123456" := by
  have hs : logoSizeOf 900 (1/5) = 180 := by unfold logoSizeOf; norm_num
  have hx : logoOriginOf 900 (logoSizeOf 900 (1/5)) = 360 := by
    rw [hs]; unfold logoOriginOf; norm_num
  have h := run_logo_center_white_backed demoEnv demoCanvas Mode.redirect
    "https://www.example.com/app-redirect" "https://www.example.com"
    900 (1/5) 2 demoQr (fun _ _ _ => some "#123456")
    (by decide) (by decide) rfl rfl 450 450
    (by rw [hx]; decide) (by rw [hx, hs]; decide)
    (by rw [hx]; decide) (by rw [hx, hs]; decide)
  simpa using h

/-- On a valid target the prior canvas is irrelevant: resizing resets
every pixel, so two runs from different prior states agree. -/
theorem run_valid_state_irrelevant (env : Env) (st st2 : Canvas) (mode : Mode)
    (ru wu : String) (size : Nat) (ratio : ℚ) (margin : Nat)
    (hv : isValidHttpUrl env.parseURL (targetUrlOf mode ru wu) = true) :
    run env st mode ru wu size ratio margin
      = run env st2 mode ru wu size ratio margin := by
  unfold run
  simp only [hv, Bool.true_eq_false, if_false]
  rfl

/-- Clearing an already fully cleared canvas changes nothing. -/
theorem clearRect_full_idem (st : Canvas) :
    clearRect (clearRect st 0 0 st.width st.height) 0 0 st.width st.height
      = clearRect st 0 0 st.width st.height := by
  unfold clearRect
  congr 1
  funext i j
  by_cases hc : 0 ≤ i ∧ i < 0 + st.width ∧ 0 ≤ j ∧ j < 0 + st.height
  · simp only [if_pos hc]
  · simp only [if_neg hc]

/-- C8: rendering twice with the same request and environment, prior
state aside, yields the identical outcome: a second `run` on the canvas
the first one left reproduces it pixel for pixel. -/
theorem run_idempotent (env : Env) (st : Canvas) (mode : Mode)
    (ru wu : String) (size : Nat) (ratio : ℚ) (margin : Nat) :
    run env (run env st mode ru wu size ratio margin).canvas
        mode ru wu size ratio margin
      = run env st mode ru wu size ratio margin := by
  by_cases h : isValidHttpUrl env.parseURL (targetUrlOf mode ru wu) = false
  · have h1 : run env st mode ru wu size ratio margin
        = ⟨clearRect st 0 0 st.width st.height,
            some (RenderError.validationError
              "Please enter a valid http/https URL.")⟩ := by
      unfold run
      simp only [h]
      rfl
    have h3 : run env (clearRect st 0 0 st.width st.height)
        mode ru wu size ratio margin
        = ⟨clearRect (clearRect st 0 0 st.width st.height) 0 0
            st.width st.height,
            some (RenderError.validationError
              "Please enter a valid http/https URL.")⟩ := by
      unfold run
      simp only [h]
      rfl
    rw [h1]
    show run env (clearRect st 0 0 st.width st.height)
        mode ru wu size ratio margin = _
    rw [h3, clearRect_full_idem]
  · have hv : isValidHttpUrl env.parseURL (targetUrlOf mode ru wu) = true := by
      revert h
      cases isValidHttpUrl env.parseURL (targetUrlOf mode ru wu) <;> simp
    exact run_valid_state_irrelevant env
      (run env st mode ru wu size ratio margin).canvas st
      mode ru wu size ratio margin hv

/-- C9 counterexample: a request with `pixelSize = 100`, outside the
documented range [300, 2000], reaches `run` unchecked and renders
normally — nothing in the render path enforces the parameter bounds. -/
theorem run_out_of_range_size_accepted :
    (run demoEnv demoCanvas Mode.redirect
        "https://www.example.com/app-redirect" "https://www.example.com"
        100 (1/5) 2).error = none
    ∧ (run demoEnv demoCanvas Mode.redirect
        "https://www.example.com/app-redirect" "https://www.example.com"
        100 (1/5) 2).canvas.width = 100 := by
  constructor
  · decide
  · decide

/-- C9 amended: `run` does not enforce the parameter bounds itself; for
parameters within the documented ranges, including the boundary values,
the logo square is nonempty and lies fully inside the image. -/
theorem logo_square_within_bounds (size : Nat) (ratio : ℚ)
    (h1 : 300 ≤ size) (_h2 : size ≤ 2000)
    (h3 : 14/100 ≤ ratio) (h4 : ratio ≤ 26/100) :
    0 < logoSizeOf size ratio
    ∧ 0 ≤ logoOriginOf size (logoSizeOf size ratio)
    ∧ logoOriginOf size (logoSizeOf size ratio) + logoSizeOf size ratio
        ≤ (size : Int) := by
  have hsize : (300 : ℚ) ≤ (size : ℚ) := by exact_mod_cast h1
  have hratio0 : (0 : ℚ) ≤ ratio := le_trans (by norm_num) h3
  have hs_pos : 0 < logoSizeOf size ratio := by
    have : (1 : Int) ≤ ⌊(size : ℚ) * ratio⌋ := by
      rw [Int.le_floor]
      push_cast
      nlinarith
    unfold logoSizeOf
    omega
  have hs_le : logoSizeOf size ratio ≤ (size : Int) := by
    have hle : (size : ℚ) * ratio ≤ ((size : Int) : ℚ) := by
      push_cast
      nlinarith
    have := Int.floor_le_floor hle
    rwa [Int.floor_intCast] at this
  have hx_nonneg : 0 ≤ logoOriginOf size (logoSizeOf size ratio) := by
    have hsq : ((logoSizeOf size ratio : Int) : ℚ) ≤ ((size : Int) : ℚ) := by
      exact_mod_cast hs_le
    unfold logoOriginOf
    rw [Int.le_floor]
    push_cast
    push_cast at hsq
    linarith
  refine ⟨hs_pos, hx_nonneg, ?_⟩
  have hbias := two_mul_logoOriginOf_le size (logoSizeOf size ratio)
  omega

/-- C9 amended witness at the upper boundary: size 2000, ratio 26/100. -/
theorem logo_square_within_bounds_witness :
    0 < logoSizeOf 2000 (26/100)
    ∧ 0 ≤ logoOriginOf 2000 (logoSizeOf 2000 (26/100))
    ∧ logoOriginOf 2000 (logoSizeOf 2000 (26/100)) + logoSizeOf 2000 (26/100)
        ≤ (2000 : Int) :=
  logo_square_within_bounds 2000 (26/100) (by decide) (by decide)
    (by norm_num) (by norm_num)

/-- C10: the string validated and encoded is the trim of the active URL
field, and `run` depends on the two URL fields only through their trims,
so padding a URL with surrounding whitespace changes nothing. -/
theorem run_trims_target (mode : Mode) (ru wu : String) :
    targetUrlOf mode ru wu = jsTrim (if mode = Mode.redirect then ru else wu)
    ∧ ∀ ru2 wu2 : String, jsTrim ru = jsTrim ru2 → jsTrim wu = jsTrim wu2 →
        ∀ (env : Env) (st : Canvas) (size : Nat) (ratio : ℚ) (margin : Nat),
          run env st mode ru wu size ratio margin
            = run env st mode ru2 wu2 size ratio margin := by
  constructor
  · cases mode <;> rfl
  · intro ru2 wu2 hru hwu env st size ratio margin
    have ht : targetUrlOf mode ru wu = targetUrlOf mode ru2 wu2 := by
      unfold targetUrlOf
      cases mode <;> simp [hru, hwu]
    unfold run
    simp only [ht]

/-- C10 witness: a padded redirect URL renders identically to the
unpadded one. -/
theorem run_trims_target_witness :
    run demoEnv demoCanvas Mode.redirect
        "  https://www.example.com/app-redirect  " "https://www.example.com"
        900 (1/5) 2
      = run demoEnv demoCanvas Mode.redirect
        "https://www.example.com/app-redirect" "https://www.example.com"
        900 (1/5) 2 :=
  (run_trims_target Mode.redirect "  https://www.example.com/app-redirect  "
      "https://www.example.com").2 "https://www.example.com/app-redirect"
    "https://www.example.com" (by decide) rfl demoEnv demoCanvas 900 (1/5) 2

end QrGen
